import Mathlib

/-!
# Verification of the cudf parquet binding (`cudf/_libxx/parquet.pyx`)

Shallow embedding of the parquet read/write/merge path of the cudf GPU
dataframe library.  The binding layer (`generate_pandas_metadata`,
`read_parquet`, `write_parquet`, `merge_filemetadata`) is translated
directly from `src/python/cudf/cudf/_libxx/parquet.pyx`; the libcudf
codec core (`parquet_reader`, `parquet_writer`, `merge_rowgroup_metadata`)
and the `Table.view` / `Table.data_view` helpers live outside the given
sources and are modelled from the specification, as marked on each
definition.
-/

namespace Cudf

/-- The closed `type_id` enumeration of `cpp/types.hpp` (`src/unnamed/part_000`). -/
inductive TypeTag where
  | EMPTY
  | INT8
  | INT16
  | INT32
  | INT64
  | FLOAT32
  | FLOAT64
  | BOOL8
  | DATE32
  | TIMESTAMP
  | CATEGORY
  | STRING
  deriving DecidableEq, Repr

/-- A cudf column: a type tag plus the per-row cells, `none` marking a null
cell (null-mask bit clear).  Payload values are modelled as integers; the
claims under study only compare cells for equality. -/
structure Column where
  dtype : TypeTag
  values : List (Option Int)
  deriving DecidableEq, Repr

/-- The index attached to a cudf `Table`/`DataFrame`: either a `RangeIndex`
(start/stop, step 1 as in cudf 0.13), a single materialized index column, or
a `MultiIndex` whose levels are (optionally named) columns. -/
inductive Index where
  | range (name : Option String) (start stop : Int)
  | col (name : Option String) (c : Column)
  | multi (levels : List (Option String × Column))
  deriving DecidableEq, Repr

/-- A cudf dataframe: ordered named data columns plus an index. -/
structure DataFrame where
  data : List (String × Column)
  index : Index
  deriving DecidableEq, Repr

/-- An entry of the `index_columns` list of the `"pandas"` user-metadata
JSON: either a plain column-name reference or a synthetic range descriptor
(a JSON object with kind/name/start/stop/step). -/
inductive IndexEntry where
  | name (s : String)
  | range (name : Option String) (start stop step : Int)
  deriving DecidableEq, Repr

/-- The parts of the `"pandas"` user-metadata JSON that the binding
produces and consumes: ordered column names (a `None` entry models an
unnamed index level recorded by `generate_pandas_metadata`), their
arrow-equivalent logical types, and the `index_columns` list. -/
structure PandasMeta where
  columns : List (Option String)
  types : List TypeTag
  index_columns : List IndexEntry
  deriving DecidableEq, Repr

/-- Modelled from the spec: `cudf.utils.dtypes.is_categorical_dtype` (not
under `src/`) — a column is categorical exactly when its type tag is
`CATEGORY` (§3 TypeTag, §4.4). -/
def is_categorical_dtype (c : Column) : Bool :=
  c.dtype == TypeTag.CATEGORY

/-- Modelled from the spec: `cudf.utils.dtypes.np_to_pa_dtype` (not under
`src/`) maps a column dtype to its arrow-equivalent logical type (§4.4);
the tag itself stands for that logical type here. -/
def np_to_pa_dtype (t : TypeTag) : TypeTag := t

/-- The errors `write_parquet` can raise before anything is written:
the two `ValueError`s of the source (`'category' column dtypes are
currently not supported…`, raised by `generate_pandas_metadata`, and the
`Unsupported …` option errors), plus the `TypeError` that
`str.encode(idx_name)` raises when a `MultiIndex` level name is `None`. -/
inductive WriteError where
  | categoryNotSupported
  | unsupportedCompression
  | unsupportedStatistics
  | noneIndexNameEncode
  deriving DecidableEq, Repr

/-- The data-column loop of `generate_pandas_metadata`
(parquet.pyx lines 87-95): collect names and arrow types, rejecting the
first CATEGORY column. -/
def dataColsMeta : List (String × Column) → Except WriteError (List (Option String) × List TypeTag)
  | [] => .ok ([], [])
  | (n, c) :: rest =>
    if is_categorical_dtype c then
      .error .categoryNotSupported
    else do
      let (ns, ts) ← dataColsMeta rest
      .ok (some n :: ns, np_to_pa_dtype c.dtype :: ts)

/-- The per-level body of the index loop of `generate_pandas_metadata`
(lines 99-127) applied to the levels of a `MultiIndex`
(`idx = table.index.get_level_values(name)` is never a `RangeIndex`):
a named level contributes its name, arrow type and a plain-name
descriptor, rejecting CATEGORY levels; an unnamed level only appends
`None` to the recorded column names. -/
def multiLevelsMeta : List (Option String × Column) → Except WriteError (List (Option String) × List TypeTag × List IndexEntry)
  | [] => .ok ([], [], [])
  | (some n, c) :: rest =>
    if is_categorical_dtype c then
      .error .categoryNotSupported
    else do
      let (ns, ts, ds) ← multiLevelsMeta rest
      .ok (some n :: ns, np_to_pa_dtype c.dtype :: ts, IndexEntry.name n :: ds)
  | (none, _) :: rest => do
      let (ns, ts, ds) ← multiLevelsMeta rest
      .ok ((none : Option String) :: ns, ts, ds)

/-- The index loop of `generate_pandas_metadata` (lines 97-127) on the
whole index: a named `RangeIndex` yields a range descriptor (step
hard-coded to 1, line 112); a named column index is checked for
CATEGORY and recorded as a plain-name descriptor; an unnamed single
index only appends `None` to the column names (line 127). -/
def indexMeta : Index → Except WriteError (List (Option String) × List TypeTag × List IndexEntry)
  | .range (some n) s e => .ok ([], [], [IndexEntry.range (some n) s e 1])
  | .range none _ _ => .ok ([(none : Option String)], [], [])
  | .col (some n) c =>
    if is_categorical_dtype c then
      .error .categoryNotSupported
    else
      .ok ([some n], [np_to_pa_dtype c.dtype], [IndexEntry.name n])
  | .col none _ => .ok ([(none : Option String)], [], [])
  | .multi ls => multiLevelsMeta ls

/-- `generate_pandas_metadata` (parquet.pyx lines 80-140): builds the
`"pandas"` JSON descriptor for a table under an index policy
(`none` = Python `None`, `some true`/`some false` = `True`/`False`).
Data columns are processed first; the index is consulted only when the
policy `is not False`. -/
def generate_pandas_metadata (t : DataFrame) (index : Option Bool) : Except WriteError PandasMeta := do
  let (dn, dt) ← dataColsMeta t.data
  if index = some false then
    .ok { columns := dn, types := dt, index_columns := [] }
  else do
    let (ins, its, ids) ← indexMeta t.index
    .ok { columns := dn ++ ins, types := dt ++ its, index_columns := ids }

/-- The column a `RangeIndex` materializes to when it is placed in a table
view: consecutive integers from `start` to `stop` (step 1), typed INT64. -/
def rangeColumn (s e : Int) : Column :=
  { dtype := TypeTag.INT64, values := (List.range (e - s).toNat).map (fun i => some (s + i)) }

/-- The physical columns an index contributes to a full table view. -/
def indexViewColumns : Index → List Column
  | .range _ s e => [rangeColumn s e]
  | .col _ c => [c]
  | .multi ls => ls.map (fun q => q.2)

/-- Modelled from the spec: `Table.data_view` of `cudf._libxx.table` (not
under `src/`) — the view over the data columns only (§4.2). -/
def dataView (t : DataFrame) : List Column :=
  t.data.map (fun q => q.2)

/-- Modelled from the spec: `Table.view` of `cudf._libxx.table` (not under
`src/`) — the full view with the index columns first, positions `0..k-1`,
followed by the data columns (§4.2). -/
def tableView (t : DataFrame) : List Column :=
  indexViewColumns t.index ++ dataView t

/-- Sequence a list of optional values, failing at the first `none` — the
shape of the `str.encode(idx_name)` loop over `MultiIndex` level names. -/
def allSome : List (Option α) → Option (List α)
  | [] => some []
  | none :: _ => none
  | some a :: rest => (allSome rest).map (fun l => a :: l)

/-- Lines 231-248 of `write_parquet`: the construction of the
`column_names` vector and of the table view `tv` handed to the encoder.
With policy `False` only the data view is taken; otherwise the full view
is taken and the index names are pushed first — except that a single
unnamed index falls back to the data view with no name pushed, and an
unnamed `MultiIndex` level makes `str.encode` raise. -/
def writeNamesAndView (t : DataFrame) (index : Option Bool) : Except WriteError (List String × List Column) :=
  if index = some false then
    .ok (t.data.map (fun q => q.1), dataView t)
  else
    match t.index with
    | .multi ls =>
      match allSome (ls.map (fun q => q.1)) with
      | some ns => .ok (ns ++ t.data.map (fun q => q.1), tableView t)
      | none => .error .noneIndexNameEncode
    | .col (some n) _ => .ok (n :: t.data.map (fun q => q.1), tableView t)
    | .range (some n) _ _ => .ok (n :: t.data.map (fun q => q.1), tableView t)
    | .col none _ => .ok (t.data.map (fun q => q.1), dataView t)
    | .range none _ _ => .ok (t.data.map (fun q => q.1), dataView t)

/-- The libcudf `compression_type` values reachable from this binding. -/
inductive CompressionType where
  | NONE
  | SNAPPY
  deriving DecidableEq, Repr

/-- The libcudf `statistics_freq` values reachable from this binding. -/
inductive StatisticsFreq where
  | STATISTICS_NONE
  | STATISTICS_ROWGROUP
  | STATISTICS_PAGE
  deriving DecidableEq, Repr

/-- ASCII uppercasing, the Python `str.upper()` applied by
`write_parquet` to the statistics option (line 266). -/
def strUpper (s : String) : String :=
  String.mk (s.data.map Char.toUpper)

/-- Lines 257-263 of `write_parquet`: `None` maps to no compression,
`"snappy"` to SNAPPY, anything else raises
`ValueError("Unsupported compression type")`. -/
def parseCompression : Option String → Except WriteError CompressionType
  | none => .ok CompressionType.NONE
  | some s => if s = "snappy" then .ok CompressionType.SNAPPY else .error .unsupportedCompression

/-- Lines 265-274 of `write_parquet`: the statistics level is uppercased
and matched against NONE / ROWGROUP / PAGE, anything else raises
`ValueError("Unsupported statistics_freq type")`. -/
def parseStatistics (s : String) : Except WriteError StatisticsFreq :=
  let u := strUpper s
  if u = "NONE" then .ok StatisticsFreq.STATISTICS_NONE
  else if u = "ROWGROUP" then .ok StatisticsFreq.STATISTICS_ROWGROUP
  else if u = "PAGE" then .ok StatisticsFreq.STATISTICS_PAGE
  else .error .unsupportedStatistics

/-- The logical content of a written parquet file: the encoder's
`table_metadata.column_names`, the physical columns of the encoded view,
and the `"pandas"` entry of `user_data` (`none` models an absent or empty
pandas string on foreign files). -/
structure ParquetFile where
  column_names : List String
  columns : List Column
  pandas : Option PandasMeta
  deriving DecidableEq, Repr

/-- A standalone serialized footer: the schema (column names and types, in
order) and the row groups it describes, each row group recorded by its row
count (§6: "list of row groups with associated schema"). -/
structure FileMetadataBlob where
  schema : List (String × TypeTag)
  row_groups : List Nat
  deriving DecidableEq, Repr

/-- Row count of a column list (all columns of a table share it). -/
def numRowsOf (cols : List Column) : Nat :=
  ((cols.head?).map (fun c => c.values.length)).getD 0

/-- Modelled from the spec: the libcudf `write_parquet` encoder (not under
`src/`) — a lossless codec (§8 "Compression is lossless", §8 round-trip)
that records the view's columns under the metadata column names, carries
`user_data` unmodified, and can serialize the footer as a standalone
blob (§4.2 footer handling). -/
def parquet_writer (names : List String) (cols : List Column) (meta : PandasMeta) :
    ParquetFile × FileMetadataBlob :=
  ({ column_names := names, columns := cols, pandas := some meta },
   { schema := names.zip (cols.map (fun c => c.dtype)), row_groups := [numRowsOf cols] })

/-- `write_parquet` (parquet.pyx lines 210-299): build the column names
and view, generate the pandas metadata, validate the compression and
statistics options — each failure raising before any bytes reach the sink
— then encode; the standalone footer blob is returned exactly when
`metadata_file_path` was given, otherwise `None` is returned.  The `.ok`
payload is (file written to the sink, returned blob). -/
def write_parquet (t : DataFrame) (index : Option Bool) (compression : Option String)
    (statistics : String) (metadata_file_path : Option String) :
    Except WriteError (ParquetFile × Option FileMetadataBlob) := do
  let (names, tv) ← writeNamesAndView t index
  let meta ← generate_pandas_metadata t index
  let _comp ← parseCompression compression
  let _stat ← parseStatistics statistics
  let fb := parquet_writer names tv meta
  .ok (fb.1, if metadata_file_path.isSome then some fb.2 else none)

/-- The libcudf `read_parquet_args` fields that lines 158-172 of
`read_parquet` populate. -/
structure ReadArgs where
  columns : List String
  strings_to_categorical : Bool
  use_pandas_metadata : Bool
  skip_rows : Int
  num_rows : Int
  row_group : Int
  row_group_count : Int
  timestamp_type : TypeTag
  deriving DecidableEq, Repr

/-- Lines 158-172 of `read_parquet`: marshal the Python-level optional
arguments into the reader argument struct, substituting the sentinel
defaults (`0` for `skip_rows`, `-1` for `num_rows`, `row_group` and
`row_group_count`) when an option is unset, and fixing the timestamp
type to EMPTY. -/
def makeReadArgs (columns : Option (List String))
    (row_group row_group_count skip_rows num_rows : Option Int)
    (strings_to_categorical use_pandas_metadata : Bool) : ReadArgs :=
  { columns := columns.getD []
    strings_to_categorical := strings_to_categorical
    use_pandas_metadata := use_pandas_metadata
    skip_rows := skip_rows.getD 0
    num_rows := num_rows.getD (-1)
    row_group := row_group.getD (-1)
    row_group_count := row_group_count.getD (-1)
    timestamp_type := TypeTag.EMPTY }

/-- `pyarrow.pandas_compat._is_generated_index_name`: does the name match
the regular expression `^__index_level_\d+__$`? -/
def isGeneratedIndexName (s : String) : Bool :=
  let cs := s.data
  let p := "__index_level_".data
  let q := "__".data
  decide (p.length + q.length + 1 ≤ cs.length) &&
  decide (cs.take p.length = p) &&
  decide (cs.drop (cs.length - q.length) = q) &&
  ((cs.drop p.length).take (cs.length - p.length - q.length)).all (fun c => c.isDigit)

/-- `pyarrow.pandas_compat._backwards_compatible_index_name`, as called on
line 200 with the same name for both arguments: a generated
`__index_level_N__` name is replaced by `None`, any other name is kept. -/
def backwards_compatible_index_name (n : String) : Option String :=
  if isGeneratedIndexName n then none else some n

/-- `cudf.DataFrame.set_index(name)` as used on line 199: the first data
column carrying the name becomes the (named) index and is removed from the
data columns. -/
def set_index (df : DataFrame) (n : String) : DataFrame :=
  match df.data.find? (fun q => decide (q.1 = n)) with
  | some q => { data := df.data.eraseP (fun r => decide (r.1 = n)), index := Index.col (some n) q.2 }
  | none => df

/-- Replace the name of an index, the effect of `df.index.name = x`. -/
def setIndexName (idx : Index) (n : Option String) : Index :=
  match idx with
  | .range _ s e => .range n s e
  | .col _ c => .col n c
  | .multi ls => .multi ls

/-- Modelled from the spec: the decode step of the libcudf
`read_parquet` reader (not under `src/`) — the selected columns are
materialized under their on-disk names with a default unnamed range index
over the row count, and the raw pandas user metadata is surfaced
unmodified (§4.1). -/
def defaultDecoded (f : ParquetFile) : DataFrame :=
  { data := f.column_names.zip f.columns
    index := Index.range none 0 (numRowsOf f.columns : Int) }

/-- Lines 182-189 of `read_parquet`: the entry the reader designates as
the index — the first element of the `index_columns` list of the pandas
user metadata, when that JSON is present and the list non-empty
(`none` models the initial `index_col = ''`). -/
def indexColHead (f : ParquetFile) : Option IndexEntry :=
  match f.pandas with
  | some m => m.index_columns.head?
  | none => none

/-- `read_parquet` (parquet.pyx lines 142-208), reading a whole file with
default selection: decode the table, then look for an `index_columns`
list in the pandas user metadata and designate its first entry as the
index.  A plain (non-empty) name present among the decoded column names
is promoted to the index via `set_index` and renamed through
`_backwards_compatible_index_name`; a plain name absent from the decoded
columns only labels the default index, and only when
`use_pandas_metadata` is set; any other entry (the initial `''`, or a
non-string such as a range descriptor) leaves the decoded frame
untouched, because `isinstance(index_col, str)` fails. -/
def read_parquet (f : ParquetFile) (use_pandas_metadata : Bool) : DataFrame :=
  let df := defaultDecoded f
  match indexColHead f with
  | some (IndexEntry.name n) =>
    if n ≠ "" then
      if f.column_names.contains n then
        let d := set_index df n
        { d with index := setIndexName d.index (backwards_compatible_index_name n) }
      else if use_pandas_metadata then
        { df with index := Index.range (some n) 0 (numRowsOf f.columns : Int) }
      else df
    else df
  | _ => df

/-- The errors of the metadata merger (§4.3, §7). -/
inductive MergeError where
  | schemaMismatch
  | invalidArgument
  deriving DecidableEq, Repr

/-- Modelled from the spec: the libcudf `merge_rowgroup_metadata` (not
under `src/`) — §4.3: the row groups of the input blobs are concatenated
in input-list order into one footer; the schemas must be identical, a
mismatch failing with SchemaMismatch; an empty input list failing with
InvalidArgument. -/
def merge_rowgroup_metadata (blobs : List FileMetadataBlob) : Except MergeError FileMetadataBlob :=
  match blobs with
  | [] => .error .invalidArgument
  | b :: rest =>
    if rest.all (fun x => decide (x.schema = b.schema)) then
      .ok { schema := b.schema
            row_groups := ((b :: rest).map (fun x => x.row_groups)).flatten }
    else .error .schemaMismatch

/-- `merge_filemetadata` (parquet.pyx lines 301-323): copy the blobs, in
list order, into the vector handed to `merge_rowgroup_metadata` and
return its result. -/
def merge_filemetadata (filemetadata_list : List FileMetadataBlob) : Except MergeError FileMetadataBlob :=
  merge_rowgroup_metadata filemetadata_list

/-! ## Comparison helpers for the round-trip and ordering claims -/

/-- The index columns `write_parquet` actually embeds, with the names it
pushes for them: nothing under policy `False` or for an unnamed single
index; the materialized range column for a named `RangeIndex`; the column
itself for a named single index; the named levels for a `MultiIndex`
(under a successful write all levels are named). -/
def writtenIndexNamedColumns (t : DataFrame) (index : Option Bool) : List (String × Column) :=
  if index = some false then []
  else
    match t.index with
    | .range (some n) s e => [(n, rangeColumn s e)]
    | .col (some n) c => [(n, c)]
    | .multi ls => ls.filterMap (fun q => q.1.map (fun n => (n, q.2)))
    | _ => []

/-- The flattened single-table reading of a dataframe: its materialized
index columns (none for a plain range index) followed by its data
columns, each with its (optional) name — the column set the round-trip
claim compares, covering names, types, row count and per-cell values
with null positions. -/
def flattenCols (t : DataFrame) : List (Option String × Column) :=
  (match t.index with
   | .range _ _ _ => []
   | .col n c => [(n, c)]
   | .multi ls => ls) ++ t.data.map (fun q => (some q.1, q.2))

/-- The flattened reading of the table as written: the embedded index
columns first, then the data columns. -/
def flattenWritten (t : DataFrame) (index : Option Bool) : List (Option String × Column) :=
  (writtenIndexNamedColumns t index).map (fun q => (some q.1, q.2)) ++
    t.data.map (fun q => (some q.1, q.2))

/-- Does the writer embed index columns: policy not `False` and the index
named (a `MultiIndex` always enters the embedding branch)? -/
def embedsIndex (t : DataFrame) (index : Option Bool) : Bool :=
  if index = some false then false
  else
    match t.index with
    | .col (some _) _ => true
    | .range (some _) _ _ => true
    | .multi _ => true
    | _ => false

/-- Is the index name the reader will promote safe from the
`_backwards_compatible_index_name` rewrite — i.e. not of the generated
`__index_level_N__` form? -/
def promotedIndexNameOk (t : DataFrame) (index : Option Bool) : Bool :=
  if index = some false then true
  else
    match t.index with
    | .col (some n) _ => !(isGeneratedIndexName n)
    | .multi ((some n, _) :: _) => !(isGeneratedIndexName n)
    | _ => true

/-- Is some CATEGORY column routed to the write path: a categorical data
column, or — when the policy embeds the index — a named categorical
single index column or named categorical `MultiIndex` level? -/
def hasRoutedCategory (t : DataFrame) (index : Option Bool) : Bool :=
  t.data.any (fun q => is_categorical_dtype q.2) ||
  (if index = some false then false
   else
     match t.index with
     | .col (some _) c => is_categorical_dtype c
     | .multi ls => ls.any (fun q => q.1.isSome && is_categorical_dtype q.2)
     | _ => false)

/-! ## Shared lemmas -/

theorem zip_map_fst_snd (l : List (α × β)) :
    (l.map (fun q => q.1)).zip (l.map (fun q => q.2)) = l :=
  (List.zip_of_prod rfl rfl).symm

theorem allSome_eq_map_some {xs : List (Option α)} {ys : List α}
    (h : allSome xs = some ys) : xs = ys.map some := by
  induction xs generalizing ys with
  | nil =>
    simp only [allSome, Option.some.injEq] at h
    simp [← h]
  | cons x xs ih =>
    cases x with
    | none => simp [allSome] at h
    | some a =>
      simp only [allSome] at h
      rcases Option.map_eq_some'.mp h with ⟨l, hl, hy⟩
      subst hy
      simp [ih hl]

theorem multi_named_facts (ls : List (Option String × Column)) (ns : List String)
    (h : ls.map (fun q => q.1) = ns.map some) :
    ls.filterMap (fun q => q.1.map (fun n => (n, q.2))) = ns.zip (ls.map (fun q => q.2)) ∧
    ls.filterMap (fun q => q.1.map IndexEntry.name) = ns.map IndexEntry.name ∧
    ns.length = ls.length := by
  induction ls generalizing ns with
  | nil =>
    cases ns with
    | nil => simp
    | cons n ns' => simp at h
  | cons q ls ih =>
    cases ns with
    | nil => simp at h
    | cons n ns' =>
      simp only [List.map_cons, List.cons.injEq] at h
      obtain ⟨h1, h2⟩ := h
      obtain ⟨ih1, ih2, ih3⟩ := ih ns' h2
      simp [List.filterMap_cons, h1, ih1, ih2, ih3, List.zip_cons_cons]

theorem set_index_cons (n : String) (c : Column) (rest : List (String × Column)) (idx : Index) :
    set_index { data := (n, c) :: rest, index := idx } n =
      { data := rest, index := Index.col (some n) c } := by
  simp [set_index, List.find?_cons_of_pos, List.eraseP_cons_of_pos]

theorem read_parquet_of_head_none {f : ParquetFile} {upm : Bool}
    (h : indexColHead f = none) : read_parquet f upm = defaultDecoded f := by
  simp only [read_parquet, h]

theorem read_parquet_of_head_range {f : ParquetFile} {upm : Bool} {nm : Option String}
    {s e st : Int} (h : indexColHead f = some (IndexEntry.range nm s e st)) :
    read_parquet f upm = defaultDecoded f := by
  simp only [read_parquet, h]

theorem read_parquet_of_head_empty_name {f : ParquetFile} {upm : Bool}
    (h : indexColHead f = some (IndexEntry.name "")) :
    read_parquet f upm = defaultDecoded f := by
  simp [read_parquet, h]

theorem read_parquet_of_head_name_present {f : ParquetFile} {upm : Bool} {n : String}
    (h : indexColHead f = some (IndexEntry.name n)) (hn : n ≠ "")
    (hc : f.column_names.contains n = true) :
    read_parquet f upm =
      { set_index (defaultDecoded f) n with
        index := setIndexName (set_index (defaultDecoded f) n).index
          (backwards_compatible_index_name n) } := by
  have hm : n ∈ f.column_names := by simpa using hc
  simp [read_parquet, h, hn, hm]

theorem read_parquet_of_head_name_absent {f : ParquetFile} {upm : Bool} {n : String}
    (h : indexColHead f = some (IndexEntry.name n)) (hn : n ≠ "")
    (hc : f.column_names.contains n = false) :
    read_parquet f upm =
      (if upm then
        { defaultDecoded f with
          index := Index.range (some n) 0 (numRowsOf f.columns : Int) }
       else defaultDecoded f) := by
  have hm : n ∉ f.column_names := by simpa using hc
  simp [read_parquet, h, hn, hm]

theorem write_parquet_ok_parts {t : DataFrame} {p : Option Bool} {c : Option String}
    {s : String} {path : Option String} {f : ParquetFile} {b : Option FileMetadataBlob}
    (h : write_parquet t p c s path = .ok (f, b)) :
    ∃ ns tv m, writeNamesAndView t p = .ok (ns, tv) ∧
      generate_pandas_metadata t p = .ok m ∧
      f = { column_names := ns, columns := tv, pandas := some m } ∧
      b = (if path.isSome then some (parquet_writer ns tv m).2 else none) := by
  unfold write_parquet at h
  cases hv : writeNamesAndView t p with
  | error e => rw [hv] at h; simp [bind, Except.bind] at h
  | ok v =>
    rcases v with ⟨ns, tv⟩
    rw [hv] at h
    cases hm : generate_pandas_metadata t p with
    | error e => rw [hm] at h; simp [bind, Except.bind] at h
    | ok m =>
      rw [hm] at h
      cases hcp : parseCompression c with
      | error e => rw [hcp] at h; simp [bind, Except.bind] at h
      | ok ct =>
        rw [hcp] at h
        cases hst : parseStatistics s with
        | error e => rw [hst] at h; simp [bind, Except.bind] at h
        | ok st =>
          rw [hst] at h
          simp only [bind, Except.bind, Except.ok.injEq, Prod.mk.injEq] at h
          exact ⟨ns, tv, m, rfl, rfl, h.1.symm, h.2.symm⟩

theorem multiLevelsMeta_descr {ls : List (Option String × Column)}
    {a : List (Option String)} {b : List TypeTag} {d : List IndexEntry}
    (h : multiLevelsMeta ls = .ok (a, b, d)) :
    d = ls.filterMap (fun q => q.1.map IndexEntry.name) := by
  induction ls generalizing a b d with
  | nil =>
    simp only [multiLevelsMeta, Except.ok.injEq, Prod.mk.injEq] at h
    simp [← h.2.2]
  | cons q ls ih =>
    rcases q with ⟨nm, c⟩
    cases nm with
    | some n =>
      simp only [multiLevelsMeta] at h
      by_cases hcat : is_categorical_dtype c
      · simp [hcat] at h
      · rw [if_neg hcat] at h
        cases hml : multiLevelsMeta ls with
        | error e => rw [hml] at h; simp [bind, Except.bind] at h
        | ok v =>
          rcases v with ⟨a', b', d'⟩
          rw [hml] at h
          simp only [bind, Except.bind, Except.ok.injEq, Prod.mk.injEq] at h
          simp [List.filterMap_cons, ← h.2.2, ih hml]
    | none =>
      simp only [multiLevelsMeta] at h
      cases hml : multiLevelsMeta ls with
      | error e => rw [hml] at h; simp [bind, Except.bind] at h
      | ok v =>
        rcases v with ⟨a', b', d'⟩
        rw [hml] at h
        simp only [bind, Except.bind, Except.ok.injEq, Prod.mk.injEq] at h
        simp [List.filterMap_cons, ← h.2.2, ih hml]

/-- The `index_columns` list `generate_pandas_metadata` records, as a
function of the index and the policy alone. -/
def indexDescriptors (t : DataFrame) (index : Option Bool) : List IndexEntry :=
  if index = some false then []
  else
    match t.index with
    | .range (some n) s e => [IndexEntry.range (some n) s e 1]
    | .col (some n) _ => [IndexEntry.name n]
    | .multi ls => ls.filterMap (fun q => q.1.map IndexEntry.name)
    | _ => []

theorem generate_ok_index_columns {t : DataFrame} {p : Option Bool} {m : PandasMeta}
    (h : generate_pandas_metadata t p = .ok m) :
    m.index_columns = indexDescriptors t p := by
  unfold generate_pandas_metadata at h
  cases hd : dataColsMeta t.data with
  | error e => rw [hd] at h; simp [bind, Except.bind] at h
  | ok v =>
    rcases v with ⟨dn, dt⟩
    rw [hd] at h
    by_cases hp : p = some false
    · simp only [bind, Except.bind, hp, if_true, Except.ok.injEq] at h
      simp [← h, indexDescriptors, hp]
    · simp only [bind, Except.bind, hp, if_false, if_neg hp] at h
      cases hi : indexMeta t.index with
      | error e => rw [hi] at h; simp [bind, Except.bind] at h
      | ok w =>
        rcases w with ⟨ins, its, ids⟩
        rw [hi] at h
        simp only [bind, Except.bind, Except.ok.injEq] at h
        have hids : m.index_columns = ids := by rw [← h]
        rw [hids, indexDescriptors, if_neg hp]
        cases hidx : t.index with
        | range nm s e =>
          cases nm with
          | some n =>
            rw [hidx] at hi
            simp only [indexMeta, Except.ok.injEq, Prod.mk.injEq] at hi
            simp [← hi.2.2]
          | none =>
            rw [hidx] at hi
            simp only [indexMeta, Except.ok.injEq, Prod.mk.injEq] at hi
            simp [← hi.2.2]
        | col nm c =>
          cases nm with
          | some n =>
            rw [hidx] at hi
            by_cases hcat : is_categorical_dtype c
            · simp [indexMeta, hcat] at hi
            · simp only [indexMeta, if_neg hcat, Except.ok.injEq, Prod.mk.injEq] at hi
              simp [← hi.2.2]
          | none =>
            rw [hidx] at hi
            simp only [indexMeta, Except.ok.injEq, Prod.mk.injEq] at hi
            simp [← hi.2.2]
        | multi ls =>
          rw [hidx] at hi
          exact multiLevelsMeta_descr hi

theorem flattenCols_default (nsl : List String) (cols : List Column) (pan : Option PandasMeta) :
    flattenCols (defaultDecoded { column_names := nsl, columns := cols, pandas := pan }) =
      (nsl.zip cols).map (fun q => (some q.1, q.2)) := by
  simp [flattenCols, defaultDecoded]

/-- C1 (amended): for every table whose write succeeds (in particular no
CATEGORY column reaches the writer) and whose promoted index name is not
of the generated `__index_level_N__` form, reading back the written file
— with any `use_pandas_metadata` setting — reproduces exactly the
embedded index columns and data columns of the original table: same
names, same order, same dtypes, and the same cells including null
positions. -/
theorem parquet_round_trip_amended (t : DataFrame) (p : Option Bool) (c : Option String)
    (s : String) (path : Option String) (f : ParquetFile) (b : Option FileMetadataBlob)
    (upm : Bool) (hok : write_parquet t p c s path = .ok (f, b))
    (hname : promotedIndexNameOk t p = true) :
    flattenCols (read_parquet f upm) = flattenWritten t p := by
  obtain ⟨ns, tv, m, hv, hm, hf, -⟩ := write_parquet_ok_parts hok
  have hic : m.index_columns = indexDescriptors t p := generate_ok_index_columns hm
  subst hf
  have hhead : indexColHead { column_names := ns, columns := tv, pandas := some m } =
      m.index_columns.head? := rfl
  by_cases hp : p = some false
  · rw [writeNamesAndView, if_pos hp] at hv
    obtain ⟨hns, htv⟩ : t.data.map (fun q => q.1) = ns ∧ dataView t = tv := by
      simpa [Prod.mk.injEq] using hv
    subst hns; subst htv
    have h0 : m.index_columns = [] := by rw [hic, indexDescriptors, if_pos hp]
    rw [read_parquet_of_head_none (by rw [hhead, h0]; rfl)]
    rw [flattenCols_default, dataView, zip_map_fst_snd]
    simp [flattenWritten, writtenIndexNamedColumns, hp]
  · cases hidx : t.index with
    | range nm rs re =>
      cases nm with
      | none =>
        rw [writeNamesAndView, if_neg hp, hidx] at hv
        obtain ⟨hns, htv⟩ : t.data.map (fun q => q.1) = ns ∧ dataView t = tv := by
          simpa [Prod.mk.injEq] using hv
        subst hns; subst htv
        have h0 : m.index_columns = [] := by
          rw [hic, indexDescriptors, if_neg hp, hidx]
        rw [read_parquet_of_head_none (by rw [hhead, h0]; rfl)]
        rw [flattenCols_default, dataView, zip_map_fst_snd]
        simp [flattenWritten, writtenIndexNamedColumns, hp, hidx]
      | some n =>
        rw [writeNamesAndView, if_neg hp, hidx] at hv
        obtain ⟨hns, htv⟩ :
            n :: t.data.map (fun q => q.1) = ns ∧ tableView t = tv := by
          simpa [Prod.mk.injEq] using hv
        subst hns; subst htv
        have h0 : m.index_columns = [IndexEntry.range (some n) rs re 1] := by
          rw [hic, indexDescriptors, if_neg hp, hidx]
        rw [read_parquet_of_head_range (by rw [hhead, h0]; rfl)]
        rw [flattenCols_default]
        rw [tableView, hidx, indexViewColumns]
        simp only [List.cons_append, List.nil_append, List.zip_cons_cons, dataView,
          zip_map_fst_snd, List.map_cons]
        simp [flattenWritten, writtenIndexNamedColumns, hp, hidx]
    | col nm c0 =>
      cases nm with
      | none =>
        rw [writeNamesAndView, if_neg hp, hidx] at hv
        obtain ⟨hns, htv⟩ : t.data.map (fun q => q.1) = ns ∧ dataView t = tv := by
          simpa [Prod.mk.injEq] using hv
        subst hns; subst htv
        have h0 : m.index_columns = [] := by
          rw [hic, indexDescriptors, if_neg hp, hidx]
        rw [read_parquet_of_head_none (by rw [hhead, h0]; rfl)]
        rw [flattenCols_default, dataView, zip_map_fst_snd]
        simp [flattenWritten, writtenIndexNamedColumns, hp, hidx]
      | some n =>
        rw [writeNamesAndView, if_neg hp, hidx] at hv
        obtain ⟨hns, htv⟩ :
            n :: t.data.map (fun q => q.1) = ns ∧ tableView t = tv := by
          simpa [Prod.mk.injEq] using hv
        subst hns; subst htv
        have h0 : m.index_columns = [IndexEntry.name n] := by
          rw [hic, indexDescriptors, if_neg hp, hidx]
        have hhd : indexColHead
            { column_names := n :: t.data.map (fun q => q.1),
              columns := tableView t, pandas := some m } = some (IndexEntry.name n) := by
          rw [hhead, h0]; rfl
        by_cases hne : n = ""
        · subst hne
          rw [read_parquet_of_head_empty_name hhd]
          rw [flattenCols_default]
          rw [tableView, hidx, indexViewColumns]
          simp only [List.cons_append, List.nil_append, List.zip_cons_cons, dataView,
            zip_map_fst_snd, List.map_cons]
          simp [flattenWritten, writtenIndexNamedColumns, hp, hidx]
        · have hcontains :
              ({ column_names := n :: t.data.map (fun q => q.1),
                 columns := tableView t, pandas := some m } : ParquetFile).column_names.contains n
              = true := List.elem_cons_self
          rw [read_parquet_of_head_name_present hhd hne hcontains]
          have hdd : defaultDecoded
              { column_names := n :: t.data.map (fun q => q.1),
                columns := tableView t, pandas := some m } =
              { data := (n, c0) :: t.data,
                index := Index.range none 0 (numRowsOf (tableView t) : Int) } := by
            rw [defaultDecoded]
            rw [tableView, hidx, indexViewColumns]
            simp [List.zip_cons_cons, dataView, zip_map_fst_snd]
          rw [hdd, set_index_cons]
          have hbw : backwards_compatible_index_name n = some n := by
            rw [promotedIndexNameOk, if_neg hp, hidx] at hname
            simp only [Bool.not_eq_eq_eq_not, Bool.not_true] at hname
            rw [backwards_compatible_index_name]
            simp [hname]
          simp [flattenCols, setIndexName, hbw, flattenWritten,
            writtenIndexNamedColumns, hp, hidx]
    | multi ls =>
      rw [writeNamesAndView, if_neg hp, hidx] at hv
      have hv2 : (match allSome (ls.map (fun q => q.1)) with
          | some ns1 => Except.ok (ns1 ++ t.data.map (fun q => q.1), tableView t)
          | none => (Except.error WriteError.noneIndexNameEncode :
              Except WriteError (List String × List Column))) = Except.ok (ns, tv) := hv
      clear hv
      cases ha : allSome (ls.map (fun q => q.1)) with
      | none => rw [ha] at hv2; simp at hv2
      | some ns0 =>
        rw [ha] at hv2
        have hv := hv2
        obtain ⟨hns, htv⟩ :
            ns0 ++ t.data.map (fun q => q.1) = ns ∧ tableView t = tv := by
          simpa [Prod.mk.injEq] using hv
        subst hns; subst htv
        have hmap : ls.map (fun q => q.1) = ns0.map some := allSome_eq_map_some ha
        obtain ⟨hf1, hf2, hlen⟩ := multi_named_facts ls ns0 hmap
        have h0 : m.index_columns = ns0.map IndexEntry.name := by
          rw [hic, indexDescriptors, if_neg hp, hidx]
          exact hf2
        cases ns0 with
        | nil =>
          have hls : ls = [] := List.map_eq_nil_iff.mp
            (show ls.map (fun q => q.1) = [] by simpa using hmap)
          subst hls
          rw [read_parquet_of_head_none (by rw [hhead, h0]; rfl)]
          rw [flattenCols_default]
          rw [tableView, hidx, indexViewColumns]
          simp only [List.map_nil, List.nil_append, dataView, zip_map_fst_snd]
          simp [flattenWritten, writtenIndexNamedColumns, hp, hidx]
        | cons n0 ns1 =>
          cases ls with
          | nil => simp at hmap
          | cons q ls1 =>
            obtain ⟨qn, qc⟩ := q
            simp only [List.map_cons, List.cons.injEq] at hmap
            obtain ⟨hqn, hmap1⟩ := hmap
            subst hqn
            have hlen1 : ns1.length = ls1.length := by simpa using hlen
            have hzip : ((n0 :: ns1) ++ t.data.map (fun q => q.1)).zip
                (tableView t) =
                (n0, qc) :: (ns1.zip (ls1.map (fun q => q.2)) ++ t.data) := by
              rw [tableView, hidx, indexViewColumns]
              simp only [List.map_cons, List.cons_append, List.zip_cons_cons]
              rw [List.zip_append (by simpa using hlen1), dataView, zip_map_fst_snd]
            have hw0 : writtenIndexNamedColumns t p =
                (n0, qc) :: ns1.zip (ls1.map (fun q => q.2)) := by
              rw [writtenIndexNamedColumns, if_neg hp, hidx]
              show List.filterMap (fun q => Option.map (fun n => (n, q.2)) q.1)
                  ((some n0, qc) :: ls1) = _
              rw [hf1]
              simp [List.zip_cons_cons]
            have hfw : flattenWritten t p =
                ((n0, qc) :: ns1.zip (ls1.map (fun q => q.2))).map
                    (fun q => (some q.1, q.2)) ++
                  t.data.map (fun q => (some q.1, q.2)) := by
              rw [flattenWritten, hw0]
            have hhd : indexColHead
                { column_names := (n0 :: ns1) ++ t.data.map (fun q => q.1),
                  columns := tableView t, pandas := some m } = some (IndexEntry.name n0) := by
              rw [hhead, h0]; rfl
            by_cases hne : n0 = ""
            · subst hne
              rw [read_parquet_of_head_empty_name hhd]
              rw [flattenCols_default, hzip]
              rw [hfw]
              simp [flattenCols]
            · have hcontains :
                  (({ column_names := (n0 :: ns1) ++ t.data.map (fun q => q.1),
                      columns := tableView t, pandas := some m } : ParquetFile)).column_names.contains
                  n0 = true := by
                simp only [List.cons_append]
                exact List.elem_cons_self
              rw [read_parquet_of_head_name_present hhd hne hcontains]
              have hdd : defaultDecoded
                  { column_names := (n0 :: ns1) ++ t.data.map (fun q => q.1),
                    columns := tableView t, pandas := some m } =
                  { data := (n0, qc) :: (ns1.zip (ls1.map (fun q => q.2)) ++ t.data),
                    index := Index.range none 0 (numRowsOf (tableView t) : Int) } := by
                rw [defaultDecoded, hzip]
              rw [hdd, set_index_cons]
              have hbw : backwards_compatible_index_name n0 = some n0 := by
                rw [promotedIndexNameOk, if_neg hp, hidx] at hname
                simp only [Bool.not_eq_eq_eq_not, Bool.not_true] at hname
                rw [backwards_compatible_index_name]
                simp [hname]
              rw [hfw]
              simp [flattenCols, setIndexName, hbw]

/-! ## Concrete tables and files used as counterexamples and witnesses -/

def colInt1 : Column := { dtype := TypeTag.INT64, values := [some 1] }

def colInt0 : Column := { dtype := TypeTag.INT64, values := [some 0] }

def colNull : Column := { dtype := TypeTag.FLOAT64, values := [none] }

def colCat : Column := { dtype := TypeTag.CATEGORY, values := [some 0] }

/-- A table whose single-level index carries the generated name
`__index_level_0__`. -/
def tGenName : DataFrame :=
  { data := [("a", colInt1)]
    index := Index.col (some "__index_level_0__") colInt0 }

/-- The file `write_parquet tGenName none none "ROWGROUP" none` produces. -/
def fGenName : ParquetFile :=
  { column_names := ["__index_level_0__", "a"]
    columns := [colInt0, colInt1]
    pandas := some { columns := [some "a", some "__index_level_0__"]
                     types := [TypeTag.INT64, TypeTag.INT64]
                     index_columns := [IndexEntry.name "__index_level_0__"] } }

/-- C1: counterexample to the round-trip claim as stated.  The table
`tGenName` — one INT64 data column and an index column named
`__index_level_0__` — writes successfully, but reading the file back
renames the promoted index to `None` (the reader pipes the name through
`pyarrow`'s `_backwards_compatible_index_name`, which erases generated
`__index_level_N__` names), so the read-back table differs from the
original in the index column's name. -/
theorem parquet_round_trip_cex :
    write_parquet tGenName none none "ROWGROUP" none = .ok (fGenName, none) ∧
    flattenCols (read_parquet fGenName true) ≠ flattenWritten tGenName none := by
  exact ⟨rfl, by decide⟩

/-- A table whose single-level index carries an ordinary name. -/
def tNamed : DataFrame :=
  { data := [("a", colInt1), ("b", colNull)]
    index := Index.col (some "idx") colInt0 }

/-- The file `write_parquet tNamed none none "ROWGROUP" none` produces. -/
def fNamed : ParquetFile :=
  { column_names := ["idx", "a", "b"]
    columns := [colInt0, colInt1, colNull]
    pandas := some { columns := [some "a", some "b", some "idx"]
                     types := [TypeTag.INT64, TypeTag.FLOAT64, TypeTag.INT64]
                     index_columns := [IndexEntry.name "idx"] } }

/-- Witness for C1's amended theorem at a concrete table. -/
theorem parquet_round_trip_witness :
    flattenCols (read_parquet fNamed true) = flattenWritten tNamed none :=
  parquet_round_trip_amended tNamed none none "ROWGROUP" none fNamed none true rfl (by decide)

/-- C7: with `skip_rows`, `num_rows`, `row_group` and `row_group_count`
all unset, the marshalled reader arguments carry the sentinel defaults
`0`, `-1`, `-1`, `-1`, whatever the remaining options are. -/
theorem read_args_unset_defaults (cols : Option (List String)) (stc upm : Bool) :
    (makeReadArgs cols none none none none stc upm).skip_rows = 0 ∧
    (makeReadArgs cols none none none none stc upm).num_rows = -1 ∧
    (makeReadArgs cols none none none none stc upm).row_group = -1 ∧
    (makeReadArgs cols none none none none stc upm).row_group_count = -1 :=
  ⟨rfl, rfl, rfl, rfl⟩

/-- Is the index a single-level one whose name is `None`? -/
def singleNameNone : Index → Bool
  | .col none _ => true
  | .range none _ _ => true
  | _ => false

/-- C10: with an index policy other than `False` and a single-level index
whose name is `None`, the writer silently falls back to the data view:
no index column is encoded and no index name enters `column_names`. -/
theorem write_unnamed_index_fallback (t : DataFrame) (p : Option Bool)
    (hp : p ≠ some false) (hi : singleNameNone t.index = true) :
    writeNamesAndView t p = .ok (t.data.map (fun q => q.1), dataView t) := by
  rw [writeNamesAndView, if_neg hp]
  cases hidx : t.index with
  | col nm c =>
    cases nm with
    | none => rfl
    | some n => rw [hidx] at hi; simp [singleNameNone] at hi
  | range nm s e =>
    cases nm with
    | none => rfl
    | some n => rw [hidx] at hi; simp [singleNameNone] at hi
  | multi ls => rw [hidx] at hi; simp [singleNameNone] at hi

/-- A table with one data column and an unnamed single-level index. -/
def tUnnamed : DataFrame :=
  { data := [("a", colInt1)], index := Index.col none colInt0 }

/-- Witness for C10 at a concrete table. -/
theorem write_unnamed_index_fallback_witness :
    writeNamesAndView tUnnamed none = .ok (["a"], [colInt1]) :=
  write_unnamed_index_fallback tUnnamed none (by decide) (by decide)

/-- C8: a successful write returns a standalone footer blob exactly when
the optional footer path was provided; with no footer path it returns
nothing. -/
theorem write_returns_blob_iff (t : DataFrame) (p : Option Bool) (c : Option String)
    (s : String) (path : Option String) (f : ParquetFile) (b : Option FileMetadataBlob)
    (hok : write_parquet t p c s path = .ok (f, b)) :
    b.isSome = path.isSome := by
  obtain ⟨ns, tv, m, -, -, -, hb⟩ := write_parquet_ok_parts hok
  rw [hb]
  cases path <;> simp

/-- The blob the writer returns for `tUnnamed` when a footer path is
given. -/
def blobUnnamed : FileMetadataBlob :=
  { schema := [("a", TypeTag.INT64)], row_groups := [1] }

/-- The file written for `tUnnamed`. -/
def fUnnamed : ParquetFile :=
  { column_names := ["a"]
    columns := [colInt1]
    pandas := some { columns := [some "a", none]
                     types := [TypeTag.INT64]
                     index_columns := [] } }

/-- Witness for C8 at a concrete write with a footer path. -/
theorem write_returns_blob_iff_witness :
    (some blobUnnamed : Option FileMetadataBlob).isSome =
      (some "meta" : Option String).isSome :=
  write_returns_blob_iff tUnnamed none none "ROWGROUP" (some "meta") fUnnamed
    (some blobUnnamed) rfl

/-- C9: merging footer blobs concatenates their row groups in input-list
order when all schemas agree, fails with SchemaMismatch when some input's
schema differs from the first one, and fails with InvalidArgument on an
empty input list. -/
theorem merge_filemetadata_spec :
    merge_filemetadata [] = .error MergeError.invalidArgument ∧
    (∀ b rest, (∀ x ∈ rest, x.schema = b.schema) →
      merge_filemetadata (b :: rest) =
        .ok { schema := b.schema
              row_groups := ((b :: rest).map (fun x => x.row_groups)).flatten }) ∧
    (∀ b rest, (∃ x ∈ rest, x.schema ≠ b.schema) →
      merge_filemetadata (b :: rest) = .error MergeError.schemaMismatch) := by
  refine ⟨rfl, ?_, ?_⟩
  · intro b rest h
    have hall : rest.all (fun x => decide (x.schema = b.schema)) = true := by
      rw [List.all_eq_true]
      intro x hx
      exact decide_eq_true (h x hx)
    rw [merge_filemetadata, merge_rowgroup_metadata, if_pos hall]
  · intro b rest h
    obtain ⟨x, hx, hne⟩ := h
    have hall : ¬ rest.all (fun x => decide (x.schema = b.schema)) = true := by
      rw [List.all_eq_true]
      intro hall
      exact hne (of_decide_eq_true (hall x hx))
    rw [merge_filemetadata, merge_rowgroup_metadata, if_neg hall]

/-- A second blob with the same schema as `blobUnnamed` but another row
group. -/
def blobUnnamed2 : FileMetadataBlob :=
  { schema := [("a", TypeTag.INT64)], row_groups := [4, 2] }

/-- Witness for C9 at a concrete two-shard merge. -/
theorem merge_filemetadata_spec_witness :
    merge_filemetadata [blobUnnamed, blobUnnamed2] =
      .ok { schema := [("a", TypeTag.INT64)], row_groups := [1, 4, 2] } :=
  merge_filemetadata_spec.2.1 blobUnnamed [blobUnnamed2] (by decide)

/-- C2 (amended): when the pandas metadata carries a non-empty
`index_columns` list, the reader designates its first entry as the index.
A plain non-empty name present among the decoded columns is removed from
the data columns and promoted to the index (renamed through
`_backwards_compatible_index_name`); a plain non-empty name absent from
the decoded columns leaves the default index, labelled with that name
exactly when `use_pandas_metadata` is set; but an entry that is not a
plain string — for example a synthetic range descriptor — leaves the
decoded frame completely untouched, with no label even when
`use_pandas_metadata` is set (as does the empty-string name, which fails
the `is not ''` test). -/
theorem read_parquet_index_designation (f : ParquetFile) (upm : Bool) (m : PandasMeta)
    (e : IndexEntry) (hm : f.pandas = some m) (he : m.index_columns.head? = some e) :
    (∀ n, e = IndexEntry.name n → n ≠ "" → f.column_names.contains n = true →
      read_parquet f upm =
        { set_index (defaultDecoded f) n with
          index := setIndexName (set_index (defaultDecoded f) n).index
            (backwards_compatible_index_name n) }) ∧
    (∀ n, e = IndexEntry.name n → n ≠ "" → f.column_names.contains n = false →
      read_parquet f upm =
        (if upm then
          { defaultDecoded f with
            index := Index.range (some n) 0 (numRowsOf f.columns : Int) }
         else defaultDecoded f)) ∧
    (∀ nm rs re st, e = IndexEntry.range nm rs re st →
      read_parquet f upm = defaultDecoded f) ∧
    (e = IndexEntry.name "" → read_parquet f upm = defaultDecoded f) := by
  have hh : indexColHead f = some e := by
    rw [indexColHead, hm]
    exact he
  refine ⟨?_, ?_, ?_, ?_⟩
  · intro n hen hne hc
    subst hen
    exact read_parquet_of_head_name_present hh hne hc
  · intro n hen hne hc
    subst hen
    exact read_parquet_of_head_name_absent hh hne hc
  · intro nm rs re st hen
    subst hen
    exact read_parquet_of_head_range hh
  · intro hen
    subst hen
    exact read_parquet_of_head_empty_name hh

/-- A file whose pandas metadata records a synthetic range descriptor
named `idx` as the index. -/
def fRangeDescr : ParquetFile :=
  { column_names := ["a"]
    columns := [colInt1]
    pandas := some { columns := [some "a"]
                     types := [TypeTag.INT64]
                     index_columns := [IndexEntry.range (some "idx") 0 1 1] } }

/-- C2: counterexample to the claim as stated.  For `fRangeDescr` the
first `index_columns` entry is a range descriptor named `idx` and
`use_pandas_metadata` is set, so the claim predicts the returned table's
default index is labelled `idx`; the code skips the whole block because
`isinstance(index_col, str)` fails, leaving the index unnamed. -/
theorem read_parquet_index_designation_cex :
    (read_parquet fRangeDescr true).index = Index.range none 0 1 ∧
    Index.range (none : Option String) 0 1 ≠ Index.range (some "idx") 0 1 := by
  exact ⟨rfl, by decide⟩

/-- The pandas metadata block of `fNamed`. -/
def mNamed : PandasMeta :=
  { columns := [some "a", some "b", some "idx"]
    types := [TypeTag.INT64, TypeTag.FLOAT64, TypeTag.INT64]
    index_columns := [IndexEntry.name "idx"] }

/-- Witness for C2's amended theorem: promoting the present name `idx`
on the concrete file `fNamed`. -/
theorem read_parquet_index_designation_witness :
    read_parquet fNamed false =
      { set_index (defaultDecoded fNamed) "idx" with
        index := setIndexName (set_index (defaultDecoded fNamed) "idx").index
          (backwards_compatible_index_name "idx") } :=
  (read_parquet_index_designation fNamed false mNamed (IndexEntry.name "idx")
    rfl rfl).1 "idx" rfl (by decide) (by decide)

/-- C3: whenever the caller embeds an index (policy not `False` and a
named or multi index) and the name/view construction succeeds, the
`column_names` vector handed to the encoder lists the embedded index
columns' names first, in exactly the order in which those columns open
the physical view, followed by the data-column names in table order —
name position `i` always describes view column `i`. -/
theorem write_parquet_index_names_first (t : DataFrame) (p : Option Bool)
    (ns : List String) (tv : List Column) (hemb : embedsIndex t p = true)
    (hv : writeNamesAndView t p = .ok (ns, tv)) :
    ns = (writtenIndexNamedColumns t p).map (fun q => q.1) ++ t.data.map (fun q => q.1) ∧
    tv = (writtenIndexNamedColumns t p).map (fun q => q.2) ++ dataView t := by
  by_cases hp : p = some false
  · rw [embedsIndex, if_pos hp] at hemb
    exact absurd hemb (by simp)
  · cases hidx : t.index with
    | range nm rs re =>
      cases nm with
      | none => rw [embedsIndex, if_neg hp, hidx] at hemb; simp at hemb
      | some n =>
        rw [writeNamesAndView, if_neg hp, hidx] at hv
        obtain ⟨hns, htv⟩ :
            n :: t.data.map (fun q => q.1) = ns ∧ tableView t = tv := by
          simpa [Prod.mk.injEq] using hv
        subst hns; subst htv
        rw [writtenIndexNamedColumns, if_neg hp, hidx]
        rw [tableView, hidx, indexViewColumns]
        simp
    | col nm c0 =>
      cases nm with
      | none => rw [embedsIndex, if_neg hp, hidx] at hemb; simp at hemb
      | some n =>
        rw [writeNamesAndView, if_neg hp, hidx] at hv
        obtain ⟨hns, htv⟩ :
            n :: t.data.map (fun q => q.1) = ns ∧ tableView t = tv := by
          simpa [Prod.mk.injEq] using hv
        subst hns; subst htv
        rw [writtenIndexNamedColumns, if_neg hp, hidx]
        rw [tableView, hidx, indexViewColumns]
        simp
    | multi ls =>
      rw [writeNamesAndView, if_neg hp, hidx] at hv
      have hv2 : (match allSome (ls.map (fun q => q.1)) with
          | some ns1 => Except.ok (ns1 ++ t.data.map (fun q => q.1), tableView t)
          | none => (Except.error WriteError.noneIndexNameEncode :
              Except WriteError (List String × List Column))) = Except.ok (ns, tv) := hv
      clear hv
      cases ha : allSome (ls.map (fun q => q.1)) with
      | none => rw [ha] at hv2; simp at hv2
      | some ns0 =>
        rw [ha] at hv2
        obtain ⟨hns, htv⟩ :
            ns0 ++ t.data.map (fun q => q.1) = ns ∧ tableView t = tv := by
          simpa [Prod.mk.injEq] using hv2
        subst hns; subst htv
        have hmap : ls.map (fun q => q.1) = ns0.map some := allSome_eq_map_some ha
        obtain ⟨hf1, -, hlen⟩ := multi_named_facts ls ns0 hmap
        have hw0 : writtenIndexNamedColumns t p = ns0.zip (ls.map (fun q => q.2)) := by
          rw [writtenIndexNamedColumns, if_neg hp, hidx]
          exact hf1
        have hlen2 : ns0.length ≤ (ls.map (fun q => q.2)).length := by
          rw [List.length_map]
          exact Nat.le_of_eq hlen
        constructor
        · rw [hw0]
          have : (ns0.zip (ls.map (fun q => q.2))).map (fun q => q.1) = ns0 := by
            simpa using List.map_fst_zip ns0 (ls.map (fun q => q.2)) hlen2
          rw [this]
        · rw [hw0, tableView, hidx, indexViewColumns]
          have hlen3 : (ls.map (fun q => q.2)).length ≤ ns0.length := by
            rw [List.length_map]
            exact Nat.le_of_eq hlen.symm
          have : (ns0.zip (ls.map (fun q => q.2))).map (fun q => q.2) =
              ls.map (fun q => q.2) := by
            simpa using List.map_snd_zip ns0 (ls.map (fun q => q.2)) hlen3
          rw [this]

/-- Witness for C3 at a concrete table with a named index. -/
theorem write_parquet_index_names_first_witness :
    (["idx", "a", "b"] : List String) =
      (writtenIndexNamedColumns tNamed none).map (fun q => q.1) ++
        tNamed.data.map (fun q => q.1) ∧
    ([colInt0, colInt1, colNull] : List Column) =
      (writtenIndexNamedColumns tNamed none).map (fun q => q.2) ++ dataView tNamed :=
  write_parquet_index_names_first tNamed none ["idx", "a", "b"]
    [colInt0, colInt1, colNull] (by decide) rfl

theorem dataColsMeta_error_of_any {d : List (String × Column)}
    (h : d.any (fun q => is_categorical_dtype q.2) = true) :
    dataColsMeta d = .error WriteError.categoryNotSupported := by
  induction d with
  | nil => simp at h
  | cons q rest ih =>
    rcases q with ⟨n, c⟩
    by_cases hcat : is_categorical_dtype c = true
    · rw [dataColsMeta, if_pos hcat]
    · simp only [List.any_cons, Bool.or_eq_true] at h
      rcases h with h | h

      · exact absurd h hcat
      · rw [dataColsMeta, if_neg hcat, ih h]
        rfl

theorem dataColsMeta_ok_of_not_any {d : List (String × Column)}
    (h : d.any (fun q => is_categorical_dtype q.2) = false) :
    ∃ r, dataColsMeta d = .ok r := by
  induction d with
  | nil => exact ⟨([], []), rfl⟩
  | cons q rest ih =>
    rcases q with ⟨n, c⟩
    simp only [List.any_cons, Bool.or_eq_false_iff] at h
    obtain ⟨⟨ns, ts⟩, hr⟩ := ih h.2
    refine ⟨(some n :: ns, np_to_pa_dtype c.dtype :: ts), ?_⟩
    rw [dataColsMeta, if_neg (by simp [h.1]), hr]
    rfl

theorem multiLevelsMeta_error_of_any {ls : List (Option String × Column)}
    (h : ls.any (fun q => q.1.isSome && is_categorical_dtype q.2) = true) :
    multiLevelsMeta ls = .error WriteError.categoryNotSupported := by
  induction ls with
  | nil => simp at h
  | cons q rest ih =>
    rcases q with ⟨nm, c⟩
    cases nm with
    | none =>
      simp only [List.any_cons, Option.isSome_none, Bool.false_and,
        Bool.false_or] at h
      rw [multiLevelsMeta, ih h]
      rfl
    | some n =>
      by_cases hcat : is_categorical_dtype c = true
      · rw [multiLevelsMeta, if_pos hcat]
      · simp only [List.any_cons, Option.isSome_some, Bool.true_and,
          Bool.or_eq_true] at h
        rcases h with h | h
        · exact absurd h hcat
        · rw [multiLevelsMeta, if_neg hcat, ih h]
          rfl

theorem generate_error_of_routed_category {t : DataFrame} {p : Option Bool}
    (h : hasRoutedCategory t p = true) :
    generate_pandas_metadata t p = .error WriteError.categoryNotSupported := by
  rw [hasRoutedCategory] at h
  by_cases hd : t.data.any (fun q => is_categorical_dtype q.2) = true
  · rw [generate_pandas_metadata, dataColsMeta_error_of_any hd]
    rfl
  · have hd' : t.data.any (fun q => is_categorical_dtype q.2) = false :=
      Bool.eq_false_iff.mpr hd
    rw [hd'] at h
    simp only [Bool.false_or] at h
    by_cases hp : p = some false
    · rw [if_pos hp] at h; simp at h
    · rw [if_neg hp] at h
      obtain ⟨r, hr⟩ := dataColsMeta_ok_of_not_any hd'
      rcases r with ⟨dn, dt⟩
      rw [generate_pandas_metadata, hr]
      have hidx : indexMeta t.index = .error WriteError.categoryNotSupported := by
        cases hix : t.index with
        | range nm rs re => rw [hix] at h; simp at h
        | col nm c0 =>
          cases nm with
          | none => rw [hix] at h; simp at h
          | some n =>
            rw [hix] at h
            rw [indexMeta, if_pos h]
        | multi ls =>
          rw [hix] at h
          rw [indexMeta]
          exact multiLevelsMeta_error_of_any h
      simp only [bind, Except.bind, if_neg hp, hidx]

theorem write_parquet_error_of_generate {t : DataFrame} {p : Option Bool}
    {c : Option String} {s : String} {path : Option String}
    {ns : List String} {tv : List Column} {er : WriteError}
    (hv : writeNamesAndView t p = .ok (ns, tv))
    (hg : generate_pandas_metadata t p = .error er) :
    write_parquet t p c s path = .error er := by
  rw [write_parquet, hv, hg]
  rfl

/-- C4 (amended): a table with a CATEGORY column routed to the write path
— a categorical data column, or a named categorical index column or
`MultiIndex` level under an embedding policy — makes the write fail with
the categorical `ValueError` before anything reaches the sink, provided
the name/view marshalling itself succeeds (a `MultiIndex` with an
unnamed level fails earlier, with a `TypeError` from `str.encode`). -/
theorem write_rejects_category (t : DataFrame) (p : Option Bool) (c : Option String)
    (s : String) (path : Option String) (ns : List String) (tv : List Column)
    (hv : writeNamesAndView t p = .ok (ns, tv))
    (hcat : hasRoutedCategory t p = true) :
    write_parquet t p c s path = .error WriteError.categoryNotSupported :=
  write_parquet_error_of_generate hv (generate_error_of_routed_category hcat)

/-- A table whose only data column is categorical, under a multi-index
with one unnamed level. -/
def tMultiCat : DataFrame :=
  { data := [("a", colCat)], index := Index.multi [(none, colInt0)] }

/-- C4: counterexample to the claim as stated.  `tMultiCat` routes a
CATEGORY data column to the write path, but the write fails with the
`TypeError` raised by `str.encode(None)` on the unnamed `MultiIndex`
level — lines 237-239 run before `generate_pandas_metadata` — not with
the UnsupportedType `ValueError`. -/
theorem write_rejects_category_cex :
    write_parquet tMultiCat none none "ROWGROUP" none =
      .error WriteError.noneIndexNameEncode ∧
    WriteError.noneIndexNameEncode ≠ WriteError.categoryNotSupported := by
  exact ⟨rfl, by decide⟩

/-- A table with a categorical data column and an unnamed range index. -/
def tCat : DataFrame :=
  { data := [("a", colCat)], index := Index.range none 0 1 }

/-- Witness for C4's amended theorem at a concrete categorical table. -/
theorem write_rejects_category_witness :
    write_parquet tCat none none "ROWGROUP" none =
      .error WriteError.categoryNotSupported :=
  write_rejects_category tCat none none "ROWGROUP" none ["a"] [colCat] rfl (by decide)

theorem write_parquet_error_of_compression {t : DataFrame} {p : Option Bool}
    {c : Option String} {s : String} {path : Option String}
    {ns : List String} {tv : List Column} {m : PandasMeta} {er : WriteError}
    (hv : writeNamesAndView t p = .ok (ns, tv))
    (hg : generate_pandas_metadata t p = .ok m)
    (hc : parseCompression c = .error er) :
    write_parquet t p c s path = .error er := by
  rw [write_parquet, hv, hg, hc]
  rfl

/-- C5 (amended): the compression option is drawn from the closed set
NONE / SNAPPY — `None` maps to NONE, `"snappy"` to SNAPPY — and any
other value makes the write fail with the Unsupported-compression
`ValueError` before anything reaches the sink, provided the earlier
stages pass (a categorical column or unencodable index name raises its
own error first, lines 235-251 preceding line 257). -/
theorem write_compression_closed_set (t : DataFrame) (p : Option Bool)
    (c : Option String) (s : String) (path : Option String)
    (ns : List String) (tv : List Column) (m : PandasMeta)
    (hv : writeNamesAndView t p = .ok (ns, tv))
    (hg : generate_pandas_metadata t p = .ok m) :
    (∀ ct, parseCompression c = .ok ct →
      ct = CompressionType.NONE ∨ ct = CompressionType.SNAPPY) ∧
    (c ≠ none → c ≠ some "snappy" →
      write_parquet t p c s path = .error WriteError.unsupportedCompression) := by
  constructor
  · intro ct hct
    cases c with
    | none =>
      left
      simpa [parseCompression] using hct.symm
    | some cs =>
      by_cases hcs : cs = "snappy"
      · right
        rw [parseCompression, if_pos hcs] at hct
        exact (Except.ok.injEq _ _).mp hct.symm
      · rw [parseCompression, if_neg hcs] at hct
        exact absurd hct (by simp)
  · intro hnone hsnappy
    have hc : parseCompression c = .error WriteError.unsupportedCompression := by
      cases c with
      | none => exact absurd rfl hnone
      | some cs =>
        have hcs : cs ≠ "snappy" := by
          intro hh
          exact hsnappy (by rw [hh])
        rw [parseCompression, if_neg hcs]
    exact write_parquet_error_of_compression hv hg hc

/-- C5: counterexample to the claim as stated.  The write call
`write_parquet tCat none (some "gzip") "ROWGROUP" none` uses the
unsupported compression `"gzip"`, but it fails with the categorical
`ValueError` (raised at line 250, before the compression check of line
257), not with the Unsupported-compression error the claim names. -/
theorem write_compression_closed_set_cex :
    write_parquet tCat none (some "gzip") "ROWGROUP" none =
      .error WriteError.categoryNotSupported ∧
    WriteError.categoryNotSupported ≠ WriteError.unsupportedCompression := by
  exact ⟨rfl, by decide⟩

/-- The pandas metadata `generate_pandas_metadata` produces for
`tUnnamed`. -/
def mUnnamed : PandasMeta :=
  { columns := [some "a", none]
    types := [TypeTag.INT64]
    index_columns := [] }

/-- Witness for C5's amended theorem at a concrete write with `"gzip"`. -/
theorem write_compression_closed_set_witness :
    write_parquet tUnnamed none (some "gzip") "ROWGROUP" none =
      .error WriteError.unsupportedCompression :=
  (write_compression_closed_set tUnnamed none (some "gzip") "ROWGROUP" none
    ["a"] [colInt1] mUnnamed rfl rfl).2 (by decide) (by decide)

theorem write_parquet_error_of_statistics {t : DataFrame} {p : Option Bool}
    {c : Option String} {s : String} {path : Option String}
    {ns : List String} {tv : List Column} {m : PandasMeta} {ct : CompressionType}
    {er : WriteError}
    (hv : writeNamesAndView t p = .ok (ns, tv))
    (hg : generate_pandas_metadata t p = .ok m)
    (hc : parseCompression c = .ok ct)
    (hs : parseStatistics s = .error er) :
    write_parquet t p c s path = .error er := by
  rw [write_parquet, hv, hg, hc, hs]
  rfl

/-- C6 (amended): the statistics level is matched case-insensitively
(through `str.upper`) against the closed set NONE / ROWGROUP / PAGE, and
any value outside the set makes the write fail with the
Unsupported-statistics `ValueError`, provided the earlier stages pass
(metadata generation and the compression check precede it, lines 250-263
before line 265). -/
theorem write_statistics_closed_set (t : DataFrame) (p : Option Bool)
    (c : Option String) (s : String) (path : Option String)
    (ns : List String) (tv : List Column) (m : PandasMeta) (ct : CompressionType)
    (hv : writeNamesAndView t p = .ok (ns, tv))
    (hg : generate_pandas_metadata t p = .ok m)
    (hc : parseCompression c = .ok ct) :
    (∀ s1 s2, strUpper s1 = strUpper s2 → parseStatistics s1 = parseStatistics s2) ∧
    (∀ r, parseStatistics s = .ok r →
      r = StatisticsFreq.STATISTICS_NONE ∨ r = StatisticsFreq.STATISTICS_ROWGROUP ∨
        r = StatisticsFreq.STATISTICS_PAGE) ∧
    (strUpper s ≠ "NONE" → strUpper s ≠ "ROWGROUP" → strUpper s ≠ "PAGE" →
      write_parquet t p c s path = .error WriteError.unsupportedStatistics) := by
  refine ⟨?_, ?_, ?_⟩
  · intro s1 s2 h
    rw [parseStatistics, parseStatistics, h]
  · intro r hr
    cases r with
    | STATISTICS_NONE => exact Or.inl rfl
    | STATISTICS_ROWGROUP => exact Or.inr (Or.inl rfl)
    | STATISTICS_PAGE => exact Or.inr (Or.inr rfl)
  · intro h1 h2 h3
    have hs : parseStatistics s = .error WriteError.unsupportedStatistics := by
      rw [parseStatistics]
      simp only [if_neg h1, if_neg h2, if_neg h3]
    exact write_parquet_error_of_statistics hv hg hc hs

/-- C6: counterexample to the claim as stated.  The write call
`write_parquet tUnnamed none (some "gzip") "COLUMN" none` uses the
unsupported statistics level `"COLUMN"`, but it fails with the
Unsupported-compression error (line 263 precedes the statistics check of
line 265), not with the Unsupported-statistics error the claim names. -/
theorem write_statistics_closed_set_cex :
    write_parquet tUnnamed none (some "gzip") "COLUMN" none =
      .error WriteError.unsupportedCompression ∧
    WriteError.unsupportedCompression ≠ WriteError.unsupportedStatistics := by
  exact ⟨rfl, by decide⟩

/-- Witness for C6's amended theorem at a concrete write with
statistics level `"COLUMN"`. -/
theorem write_statistics_closed_set_witness :
    write_parquet tUnnamed none none "COLUMN" none =
      .error WriteError.unsupportedStatistics :=
  (write_statistics_closed_set tUnnamed none none "COLUMN" none
    ["a"] [colInt1] mUnnamed CompressionType.NONE rfl rfl rfl).2.2
    (by decide) (by decide) (by decide)

end Cudf
